import Mathlib

/-!
Verification of the span-location and redaction-decision engine of the
batch PDF redactor (`pdf-batch-redaction.py`).

The program text is embedded shallowly:

* page text and file paths are `List Char` (Python strings, indexed by
  code point);
* `str.index` is `firstIdx` (first occurrence; `none` models `ValueError`);
* Python slicing `text[a:b]` (with non-negative bounds) is `pySlice`;
* the per-page marker search of `redaction` (lines 140-165) is `locate`,
  returning `Except` — the `error` case models the `UnboundLocalError`
  raised when the handler for `end_redact2`/`end_redact3` references the
  diagnostic variable that only the `end_redact1` branch assigns;
* the redaction commit (lines 167-173), the per-document loop, the batch
  loop of `batch_redact`, the file filter of `find_files_in_dir` and the
  `__main__` confirmation gate are each embedded below next to their uses.
-/

set_option maxRecDepth 4000

namespace Redact

/-- `isPre needle hay` is true iff `needle` occurs at the very start of
`hay` (character-by-character comparison, as Python substring matching
does at one position). -/
def isPre : List Char → List Char → Bool
  | [], _ => true
  | _ :: _, [] => false
  | a :: as, b :: bs => a = b && isPre as bs

/-- First index at which `needle` occurs in `hay`: the embedding of
Python `hay.index(needle)` and, via `Option.isSome`, of
`needle in hay`.  `none` models the `ValueError` that `str.index`
raises when the substring is absent. -/
def firstIdx (needle : List Char) : List Char → Option Nat
  | [] => if isPre needle [] then some 0 else none
  | c :: rest =>
    if isPre needle (c :: rest) then some 0
    else (firstIdx needle rest).map (fun j => j + 1)

/-- Python `needle in hay` (substring containment). -/
def containsSub (needle hay : List Char) : Bool := (firstIdx needle hay).isSome

/-- Python slice `l[a:b]` for non-negative `a`, `b`: the elements with
indices `a ≤ i < b`, clamped to the length, empty when `b ≤ a`. -/
def pySlice (a b : Nat) (l : List Char) : List Char := (l.take b).drop a

/-- The start marker (line 135 of the source). -/
def start_redact : List Char := "Login and Password information if needed\n".toList

/-- First end-marker candidate (line 136). -/
def end_redact1 : List Char := "\nStory Link 1".toList

/-- Second end-marker candidate (line 137). -/
def end_redact2 : List Char := "\nVideo Upload 1".toList

/-- Third end-marker candidate (line 138). -/
def end_redact3 : List Char := "\nPublication, ".toList

/-- The diagnostic assigned to `error` in the `end_redact1` branch
(line 143). -/
def checkFileError : String := "CHECK FILE: Potential redaction found but not completed"

/-- The local state of one execution of the page-scanning block of
`redaction` (lines 140-165): the current value of `result`, whether the
local variable `error` has been assigned, and the notes passed to
`log_file` so far on this page. -/
structure LocSt where
  result : Option (List Char)
  errDef : Bool
  logs : List String
deriving DecidableEq

/-- One `if end_redactN in text:` block of `redaction` (lines 142-149,
151-157, 159-165).  When the end marker is present, the span between
`text.index(start_redact) + len(start_redact)` and
`text.index(end_redactN)` overwrites `result`; when `start_redact` is
absent, `str.index` raises `ValueError`, and the handler either logs
the diagnostic held in `error` (if that variable has been assigned) or
itself raises `UnboundLocalError`, modelled by `Except.error` carrying
the state at the raise. -/
def tryBranch (endMark text : List Char) (st : LocSt) : Except LocSt LocSt :=
  match firstIdx endMark text with
  | none => Except.ok st
  | some e =>
    match firstIdx start_redact text with
    | some s =>
      Except.ok { st with result := some (pySlice (s + start_redact.length) e text) }
    | none =>
      if st.errDef then
        Except.ok { st with result := none, logs := st.logs ++ [checkFileError] }
      else
        Except.error st

/-- The whole per-page marker scan of `redaction` (lines 140-165):
`result = None`, then the three end-marker branches in source order.
`error` is assigned exactly when `end_redact1 in text` (line 143 runs
before the `try`), so `errDef` can be pre-set from that test. -/
def locate (text : List Char) : Except LocSt LocSt :=
  (tryBranch end_redact1 text
      { result := none, errDef := (firstIdx end_redact1 text).isSome, logs := [] }).bind
    (fun s1 => (tryBranch end_redact2 text s1).bind
      (fun s2 => tryBranch end_redact3 text s2))

/-- Python `s.lower()`, character by character. -/
def lowerL (s : List Char) : List Char := s.map Char.toLower

/-- Line 168: `result.lower() in ['n/a', 'na']` — the placeholder test
that suppresses the redaction commit. -/
def placeholder (r : List Char) : Bool :=
  lowerL r = "n/a".toList || lowerL r = "na".toList

/-- The per-document status variable `file_stat` (lines 129, 173): the
source only ever assigns the two strings `'Unredacted'` and
`'Redacted'`. -/
inductive FileStat where
  | Unredacted
  | Redacted
deriving DecidableEq

/-- One page of an open document: its extracted text
(`page.get_text()`) and the external `page.search_for` capability,
abstracted to the number of rectangles returned for a given literal
string. -/
structure Page where
  text : List Char
  searchFor : List Char → Nat

/-- The observable effect of one iteration of the page loop of
`redaction` (lines 131-173): notes logged, the commit performed (the
span passed to `page.search_for` together with the number of rectangles
annotated before `page.apply_redactions()`), and the value of
`file_stat` afterwards. -/
structure PageExec where
  logs : List String
  commit : Option (List Char × Nat)
  stat : FileStat

/-- One iteration of the page loop: the marker scan (`locate`) followed
by lines 167-173.  When `result` is not `None` and not a placeholder,
every rectangle found for `result` is annotated, the redactions are
applied, and `file_stat` is set to `'Redacted'` — unconditionally, even
when `search_for` found zero rectangles. -/
def processPage (pg : Page) (stat : FileStat) : Except (List String) PageExec :=
  match locate pg.text with
  | Except.error st => Except.error st.logs
  | Except.ok st =>
    match st.result with
    | none => Except.ok ⟨st.logs, none, stat⟩
    | some r =>
      if placeholder r then Except.ok ⟨st.logs, none, stat⟩
      else Except.ok ⟨st.logs, some (r, pg.searchFor r), FileStat.Redacted⟩

/-- The `for page in doc:` loop of `redaction`, accumulating logged
notes and commits; an exception on any page aborts the document,
carrying the notes already written. -/
def runPages :
    List Page → FileStat → List String → List (List Char × Nat) →
      Except (List String) (FileStat × List String × List (List Char × Nat))
  | [], stat, logs, commits => Except.ok (stat, logs, commits)
  | pg :: rest, stat, logs, commits =>
    match processPage pg stat with
    | Except.error l => Except.error (logs ++ l)
    | Except.ok pe => runPages rest pe.stat (logs ++ pe.logs) (commits ++ pe.commit.toList)

/-- `".pdf"` as used by line 176 (`file.split(".pdf")[0]`) and the
filename filter. -/
def pdfExt : List Char := ".pdf".toList

/-- `"_redacted.pdf"`, the suffix of every saved output (line 177) and
the exclusion suffix of the filter (line 55). -/
def redactSuffix : List Char := "_redacted.pdf".toList

/-- Python `s.split(sep)[0]`: the text before the first occurrence of
`sep`, or all of `s` when `sep` is absent. -/
def pySplitFirst (sep s : List Char) : List Char :=
  match firstIdx sep s with
  | some i => s.take i
  | none => s

/-- Lines 176-177: the name under which a redacted document is saved,
`f"{file.split(sep)[0]}_redacted.pdf"` with `sep = ".pdf"`. -/
def redactedName (file : List Char) : List Char :=
  pySplitFirst pdfExt file ++ redactSuffix

/-- The result of one call to `redaction(file)` (lines 104-180): notes
logged (each later paired with `file` by `log_file`), commits made,
the final `file_stat`, the path the document was saved under (lines
175-178, only when `file_stat == 'Redacted'`), and the return value
(line 180; Python returns `None` otherwise). -/
structure RedactionResult where
  logs : List String
  commits : List (List Char × Nat)
  stat : FileStat
  savedAs : Option (List Char)
  retVal : Option (List Char)

/-- `redaction(file)` over a document given as its list of pages. -/
def redaction (file : List Char) (pages : List Page) :
    Except (List String) RedactionResult :=
  match runPages pages FileStat.Unredacted [] [] with
  | Except.error l => Except.error l
  | Except.ok (stat, logs, commits) =>
    if stat = FileStat.Redacted then
      Except.ok ⟨logs, commits, stat, some (redactedName file), some file⟩
    else
      Except.ok ⟨logs, commits, stat, none, none⟩

/-- A single-quote character, for rendering Python `repr` of strings. -/
def sq : String := String.singleton (Char.ofNat 39)

/-- The string that `log_file` (lines 98-102) actually places in the
`Notes` CSV field: `data.append({error})` appends the one-element SET
`\x7berror\x7d`, which the CSV writer renders with `str` — `"\x7bNone\x7d"` when no
error is given, and the quoted text otherwise. -/
def noteCell (error : Option String) : String :=
  match error with
  | none => "\x7bNone\x7d"
  | some s => "\x7b" ++ sq ++ s ++ sq ++ "\x7d"

/-- One data row of the redaction log as written by `log_file`: the
file path and the rendered `Notes` cell (the date column is external
input and not modelled). -/
structure LogRow where
  file : List Char
  cell : String
deriving DecidableEq

/-- The note used by `batch_redact` when `redaction` raises
(line 210). -/
def errorNeedsReview : String := "ERROR - needs review"

/-- The state of the `batch_redact` loop (lines 200-217): the local
variable `f` (`none` while still unassigned — referencing it then
raises `UnboundLocalError`), the log rows written, the `files` list to
be returned, and the paths of redacted copies saved so far. -/
structure BatchSt where
  f : Option (Option (List Char))
  rows : List LogRow
  files : List (List Char)
  saved : List (List Char)

/-- Lines 213-215: `if f != None: log_file(f); files.append(f)`.
`Except.error` models the `UnboundLocalError` raised when `f` has never
been assigned (the first file raised before `f = redaction(filepath)`
completed). -/
def checkF (st : BatchSt) : Except BatchSt BatchSt :=
  match st.f with
  | none => Except.error st
  | some none => Except.ok st
  | some (some p) =>
    Except.ok { st with rows := st.rows ++ [⟨p, noteCell none⟩], files := st.files ++ [p] }

/-- One iteration of the `batch_redact` loop body (lines 202-215) on
the document at path `doc.fst` with pages `doc.snd`.  On success `f` is
reassigned; on an exception from `redaction` the handler logs
`'ERROR - needs review'` and `f` keeps its previous value (or stays
unassigned). -/
def batchStep (doc : List Char × List Page) (st : BatchSt) : Except BatchSt BatchSt :=
  match redaction doc.fst doc.snd with
  | Except.ok r =>
    checkF { st with
      rows := st.rows ++ r.logs.map (fun e => ⟨doc.fst, noteCell (some e)⟩),
      saved := st.saved ++ r.savedAs.toList,
      f := some r.retVal }
  | Except.error l =>
    checkF { st with
      rows := (st.rows ++ l.map (fun e => ⟨doc.fst, noteCell (some e)⟩))
        ++ [⟨doc.fst, noteCell (some errorNeedsReview)⟩] }

/-- The `batch_redact` loop over a list of documents. -/
def batchRun : List (List Char × List Page) → BatchSt → Except BatchSt BatchSt
  | [], st => Except.ok st
  | d :: rest, st =>
    match batchStep d st with
    | Except.error s => Except.error s
    | Except.ok s => batchRun rest s

/-- `batch_redact(dir)` (lines 183-217) over the eligible documents of
the directory, in enumeration order.  `Except.ok` carries the final
state (whose `files` field is the return value); `Except.error` models
an uncaught exception aborting the run. -/
def batch_redact (docs : List (List Char × List Page)) : Except BatchSt BatchSt :=
  batchRun docs ⟨none, [], [], []⟩

/-- `suf` is a suffix of `s` — Python `s.endswith(suf)`. -/
def isSuf (suf s : List Char) : Bool := isPre suf.reverse s.reverse

/-- The filename test of `find_files_in_dir` (lines 53-58): yield a
file iff its name starts with `"Application-"` or `"Judge-"`, ends with
`".pdf"`, and does not end with `"_redacted.pdf"`. -/
def eligible (name : List Char) : Bool :=
  (isPre "Application-".toList name || isPre "Judge-".toList name)
    && isSuf pdfExt name && !(isSuf redactSuffix name)

/-- A directory tree as `os.scandir` exposes it: files carry names;
a directory is a sequence of entries (`dirNil`/`dirCons` build the
sequence; directory names are never inspected by the filter, matching
the source, so they are not stored). -/
inductive FSTree where
  | file (name : List Char)
  | dirNil
  | dirCons (entry : FSTree) (rest : FSTree)

/-- `find_files_in_dir` (lines 31-60): recurse into directories in
order, yield eligible file names. -/
def find_files_in_dir : FSTree → List (List Char)
  | FSTree.file n => if eligible n then [n] else []
  | FSTree.dirNil => []
  | FSTree.dirCons e rest => find_files_in_dir e ++ find_files_in_dir rest

/-- All file names of a tree, in traversal order, with no filter. -/
def allNames : FSTree → List (List Char)
  | FSTree.file n => [n]
  | FSTree.dirNil => []
  | FSTree.dirCons e rest => allNames e ++ allNames rest

/-- The observable effects of one run of the `__main__` block
(lines 220-249): whether a fresh `redactionlog_<date>.csv` (with its
header row) was created, whether `batch_redact` ran, the data rows
written, the originals deleted (replace mode), the redacted copies
saved, and whether an exception escaped the batch. -/
structure MainEffects where
  logCreated : Bool
  batchRan : Bool
  dataRows : List LogRow
  deleted : List (List Char)
  saved : List (List Char)
  crashed : Bool

/-- The `__main__` block: a missing redaction log is created (header
written) BEFORE any prompt (lines 222-231); then, in replace mode
(`optional_arg.lower() == "replace"`), a `y` answer runs the batch and
deletes every returned original, while in copy mode
(`optional_arg == 'null'`) a `y` answer just runs the batch; any other
answer (or any other argument) runs nothing further. -/
def mainRun (logExists : Bool) (optionalArg confirm : List Char)
    (docs : List (List Char × List Page)) : MainEffects :=
  if lowerL optionalArg = "replace".toList then
    if lowerL confirm = "y".toList then
      match batch_redact docs with
      | Except.ok st => ⟨!logExists, true, st.rows, st.files, st.saved, false⟩
      | Except.error st => ⟨!logExists, true, st.rows, [], st.saved, true⟩
    else ⟨!logExists, false, [], [], [], false⟩
  else if optionalArg = "null".toList then
    if lowerL confirm = "y".toList then
      match batch_redact docs with
      | Except.ok st => ⟨!logExists, true, st.rows, [], st.saved, false⟩
      | Except.error st => ⟨!logExists, true, st.rows, [], st.saved, true⟩
    else ⟨!logExists, false, [], [], [], false⟩
  else ⟨!logExists, false, [], [], [], false⟩

/-- `needle` occurs at index `i` of `hay` (Python substring match at a
position). -/
def matchAt (needle hay : List Char) (i : Nat) : Bool := isPre needle (hay.drop i)

/-- The end-marker candidate whose span survives the three sequential
overwriting branches of `locate`: the LAST present candidate in source
order `end_redact1`, `end_redact2`, `end_redact3`. -/
def chosenEnd (text : List Char) : Option (List Char) :=
  if (firstIdx end_redact3 text).isSome then some end_redact3
  else if (firstIdx end_redact2 text).isSome then some end_redact2
  else if (firstIdx end_redact1 text).isSome then some end_redact1
  else none

/-- The spec's worked example page: start marker, `SECRET`, first end
marker. -/
def exText : List Char :=
  "Login and Password information if needed\nSECRET\nStory Link 1".toList

/-- A page whose located span is the placeholder `n/a`. -/
def naText : List Char :=
  "Login and Password information if needed\nn/a\nStory Link 1".toList

/-- A page whose located span is the placeholder in upper case. -/
def nAText : List Char :=
  "Login and Password information if needed\nN/A\nStory Link 1".toList

/-- A page containing only the second end-marker candidate: the branch
for it references the unassigned diagnostic variable when the start
marker is missing. -/
def badText : List Char := "\nVideo Upload 1".toList

/-- A page where the start marker occurs only after the end marker. -/
def swapText : List Char :=
  "\nStory Link 1Login and Password information if needed\n".toList

/-- A page containing two end-marker candidates (the first and the
third). -/
def multiText : List Char :=
  "Login and Password information if needed\nX\nStory Link 1\nPublication, tail".toList

/-- A page on which both the start marker and the first end marker
occur twice. -/
def dupText : List Char :=
  ("Login and Password information if needed\nA\nStory Link 1" ++
    "Login and Password information if needed\nB\nStory Link 1").toList

/-- An eligible application file path. -/
def pA : List Char := "Application-1.pdf".toList

/-- An eligible judge file path. -/
def pB : List Char := "Judge-2.pdf".toList

/-- A `search_for` capability that finds one rectangle for every
query. -/
def sfOne : List Char → Nat := fun _ => 1

/-- A `search_for` capability that finds no rectangle for any query
(text present in the extracted stream but not in the renderable
layout). -/
def sfZero : List Char → Nat := fun _ => 0

/-- A directory holding an eligible file, an already-redacted output,
and an ineligible file. -/
def exTree : FSTree :=
  FSTree.dirCons (FSTree.file pA)
    (FSTree.dirCons (FSTree.file "Application-1_redacted.pdf".toList)
      (FSTree.dirCons (FSTree.file "notes.txt".toList) FSTree.dirNil))

end Redact

namespace Redact

/-! ### Properties of the string primitives -/

theorem isPre_append (n t : List Char) : isPre n (n ++ t) = true := by
  induction n with
  | nil => rfl
  | cons a as ih => simp [isPre, ih]

theorem isPre_decomp (n h : List Char) (hp : isPre n h = true) :
    h = n ++ h.drop n.length := by
  induction n generalizing h with
  | nil => simp
  | cons a as ih =>
    cases h with
    | nil => simp [isPre] at hp
    | cons b bs =>
      simp only [isPre, Bool.and_eq_true, decide_eq_true_eq] at hp
      obtain ⟨rfl, hp⟩ := hp
      simpa using ih bs hp

theorem firstIdx_matches (n hay : List Char) (i : Nat)
    (h : firstIdx n hay = some i) : matchAt n hay i = true := by
  induction hay generalizing i with
  | nil =>
    unfold firstIdx at h
    split at h
    · cases h
      simpa [matchAt] using by assumption
    · cases h
  | cons c rest ih =>
    unfold firstIdx at h
    split at h
    · cases h
      simpa [matchAt] using by assumption
    · simp only [Option.map_eq_some'] at h
      obtain ⟨j, hj, rfl⟩ := h
      simpa [matchAt] using ih j hj

theorem firstIdx_least (n hay : List Char) (i : Nat)
    (h : firstIdx n hay = some i) : ∀ j, j < i → matchAt n hay j = false := by
  induction hay generalizing i with
  | nil =>
    unfold firstIdx at h
    split at h
    · cases h
      omega
    · cases h
  | cons c rest ih =>
    unfold firstIdx at h
    split at h
    · cases h
      omega
    · simp only [Option.map_eq_some'] at h
      obtain ⟨k, hk, rfl⟩ := h
      intro j hj
      cases j with
      | zero =>
        simp only [matchAt, List.drop_zero]
        simp only [Bool.not_eq_true] at *
        assumption
      | succ j => simpa [matchAt] using ih k hk j (by omega)

theorem firstIdx_le_length (n hay : List Char) (i : Nat)
    (h : firstIdx n hay = some i) : i ≤ hay.length := by
  induction hay generalizing i with
  | nil =>
    unfold firstIdx at h
    split at h
    · cases h; simp
    · cases h
  | cons c rest ih =>
    unfold firstIdx at h
    split at h
    · cases h; simp
    · simp only [Option.map_eq_some'] at h
      obtain ⟨k, hk, rfl⟩ := h
      have := ih k hk
      simp
      omega

theorem pySlice_eq_nil (a b : Nat) (l : List Char) (h : b ≤ a) :
    pySlice a b l = [] := by
  apply List.drop_eq_nil_of_le
  calc (l.take b).length ≤ b := by simp
    _ ≤ a := h

theorem text_decomp (text start : List Char) (s e : Nat)
    (hs : matchAt start text s = true)
    (hse : s + start.length ≤ e) (hel : e ≤ text.length) :
    text = text.take s ++ start ++ pySlice (s + start.length) e text ++ text.drop e := by
  have h1 : text.drop s = start ++ text.drop (s + start.length) := by
    have := isPre_decomp start (text.drop s) hs
    simpa [Nat.add_comm] using this
  have h2 : text.drop (s + start.length) =
      pySlice (s + start.length) e text ++ text.drop e := by
    conv_lhs => rw [← List.take_append_drop e text]
    rw [List.drop_append_eq_append_drop]
    have hlen : (text.take e).length = e := by
      simp [Nat.min_eq_left hel]
    rw [hlen]
    have : s + start.length - e = 0 := by omega
    simp [pySlice, this]
  calc text = text.take s ++ text.drop s := (List.take_append_drop s text).symm
    _ = text.take s ++ (start ++ (pySlice (s + start.length) e text ++ text.drop e)) := by
        rw [h1, ← h2]
    _ = text.take s ++ start ++ pySlice (s + start.length) e text ++ text.drop e := by
        simp [List.append_assoc]

/-! ### Behaviour of the marker scan -/

theorem tryBranch_of_start (endMark text : List Char) (st : LocSt) (s : Nat)
    (hs : firstIdx start_redact text = some s) :
    tryBranch endMark text st = Except.ok
      (match firstIdx endMark text with
        | none => st
        | some e => { st with result := some (pySlice (s + start_redact.length) e text) }) := by
  unfold tryBranch
  cases h : firstIdx endMark text <;> simp [hs]

theorem locate_of_start (text : List Char) (s : Nat)
    (hs : firstIdx start_redact text = some s) :
    locate text = Except.ok
      ⟨(chosenEnd text).bind
          (fun m => (firstIdx m text).map
            (fun e => pySlice (s + start_redact.length) e text)),
        (firstIdx end_redact1 text).isSome, []⟩ := by
  unfold locate
  rw [tryBranch_of_start end_redact1 text _ s hs]
  cases h1 : firstIdx end_redact1 text <;>
    simp only [Except.bind] <;>
    rw [tryBranch_of_start end_redact2 text _ s hs] <;>
    cases h2 : firstIdx end_redact2 text <;>
      simp only [Except.bind] <;>
      rw [tryBranch_of_start end_redact3 text _ s hs] <;>
      cases h3 : firstIdx end_redact3 text <;>
        simp [chosenEnd, h1, h2, h3]

theorem locate_no_start_end1 (text : List Char)
    (hs : firstIdx start_redact text = none)
    (h1 : (firstIdx end_redact1 text).isSome = true) :
    ∃ st, locate text = Except.ok st ∧ st.result = none ∧ checkFileError ∈ st.logs := by
  obtain ⟨e1, he1⟩ := Option.isSome_iff_exists.mp h1
  cases h2 : firstIdx end_redact2 text with
  | none =>
    cases h3 : firstIdx end_redact3 text with
    | none =>
      exact ⟨⟨none, true, [checkFileError]⟩,
        by simp [locate, tryBranch, hs, he1, h2, h3, Except.bind], rfl, by simp⟩
    | some e3 =>
      exact ⟨⟨none, true, [checkFileError, checkFileError]⟩,
        by simp [locate, tryBranch, hs, he1, h2, h3, Except.bind], rfl, by simp⟩
  | some e2 =>
    cases h3 : firstIdx end_redact3 text with
    | none =>
      exact ⟨⟨none, true, [checkFileError, checkFileError]⟩,
        by simp [locate, tryBranch, hs, he1, h2, h3, Except.bind], rfl, by simp⟩
    | some e3 =>
      exact ⟨⟨none, true, [checkFileError, checkFileError, checkFileError]⟩,
        by simp [locate, tryBranch, hs, he1, h2, h3, Except.bind], rfl, by simp⟩

theorem locate_no_start_no_end1 (text : List Char)
    (hs : firstIdx start_redact text = none)
    (h1 : firstIdx end_redact1 text = none)
    (h23 : (firstIdx end_redact2 text).isSome = true ∨
      (firstIdx end_redact3 text).isSome = true) :
    ∃ st, locate text = Except.error st := by
  cases h2 : firstIdx end_redact2 text with
  | some e2 =>
    exact ⟨⟨none, false, []⟩, by simp [locate, tryBranch, hs, h1, h2, Except.bind]⟩
  | none =>
    have h3 : ∃ e3, firstIdx end_redact3 text = some e3 := by
      rcases h23 with h | h
      · rw [h2] at h
        simp at h
      · exact Option.isSome_iff_exists.mp h
    obtain ⟨e3, h3⟩ := h3
    exact ⟨⟨none, false, []⟩, by simp [locate, tryBranch, hs, h1, h2, h3, Except.bind]⟩

/-! ### The claims -/

/-- Claim C1 (confirmed).  Whenever the start marker occurs (first
occurrence at `s`) and its end precedes the first occurrence `e` of the
chosen end-marker candidate, the scan succeeds and `result` is exactly
the text strictly between the markers: the page splits as
`take s ++ start marker ++ result ++ drop e`, excluding both markers.
On the spec's worked example page the located span is `SECRET`, the
span is committed, and the document outcome is `Redacted` with the
redacted copy saved. -/
theorem locate_between_markers (text m : List Char) (s e : Nat)
    (hs : firstIdx start_redact text = some s)
    (hm : chosenEnd text = some m)
    (he : firstIdx m text = some e)
    (hse : s + start_redact.length ≤ e) :
    (∃ st, locate text = Except.ok st ∧
      st.result = some (pySlice (s + start_redact.length) e text)) ∧
    text = text.take s ++ start_redact ++
      pySlice (s + start_redact.length) e text ++ text.drop e ∧
    locate exText = Except.ok ⟨some "SECRET".toList, true, []⟩ ∧
    redaction pA [⟨exText, sfOne⟩] = Except.ok
      ⟨[], [("SECRET".toList, 1)], FileStat.Redacted,
        some "Application-1_redacted.pdf".toList, some pA⟩ := by
  refine ⟨⟨_, locate_of_start text s hs, by simp [hm, he]⟩, ?_, rfl, rfl⟩
  exact text_decomp text start_redact s e (firstIdx_matches _ _ _ hs) hse
    (firstIdx_le_length m text e he)

/-- Witness for C1 at the worked example: start marker at index 0, end
marker at index 47. -/
theorem locate_between_markers_witness :
    (∃ st, locate exText = Except.ok st ∧
      st.result = some (pySlice (0 + start_redact.length) 47 exText)) ∧
    exText = exText.take 0 ++ start_redact ++
      pySlice (0 + start_redact.length) 47 exText ++ exText.drop 47 ∧
    locate exText = Except.ok ⟨some "SECRET".toList, true, []⟩ ∧
    redaction pA [⟨exText, sfOne⟩] = Except.ok
      ⟨[], [("SECRET".toList, 1)], FileStat.Redacted,
        some "Application-1_redacted.pdf".toList, some pA⟩ :=
  locate_between_markers exText end_redact1 0 47 rfl rfl rfl (by decide)

/-- Claim C10 (confirmed).  The span boundaries are computed from the
FIRST (leftmost) occurrence of each marker: `s` and `e` really carry an
occurrence, every strictly smaller index carries none, and `result` is
the slice these two leftmost indices delimit. -/
theorem locate_first_occurrence (text m : List Char) (s e : Nat)
    (hs : firstIdx start_redact text = some s)
    (hm : chosenEnd text = some m)
    (he : firstIdx m text = some e) :
    matchAt start_redact text s = true ∧
    (∀ j, j < s → matchAt start_redact text j = false) ∧
    matchAt m text e = true ∧
    (∀ j, j < e → matchAt m text j = false) ∧
    ∃ st, locate text = Except.ok st ∧
      st.result = some (pySlice (s + start_redact.length) e text) :=
  ⟨firstIdx_matches _ _ _ hs, firstIdx_least _ _ _ hs, firstIdx_matches _ _ _ he,
    firstIdx_least _ _ _ he, _, locate_of_start text s hs, by simp [hm, he]⟩

/-- Witness for C10 on a page where both markers occur twice: the span
comes from the occurrences at 0 and 42, not the later ones. -/
theorem locate_first_occurrence_witness :
    matchAt start_redact dupText 0 = true ∧
    (∀ j, j < 0 → matchAt start_redact dupText j = false) ∧
    matchAt end_redact1 dupText 42 = true ∧
    (∀ j, j < 42 → matchAt end_redact1 dupText j = false) ∧
    ∃ st, locate dupText = Except.ok st ∧
      st.result = some (pySlice (0 + start_redact.length) 42 dupText) :=
  locate_first_occurrence dupText end_redact1 0 42 rfl rfl rfl

/-- Claim C7 (confirmed).  The three end-marker branches run in source
order and each present one OVERWRITES `result`, so the span used is the
one from the LAST present candidate: `end_redact3` beats `end_redact2`
beats `end_redact1`. -/
theorem last_end_marker_wins (text : List Char) (s : Nat)
    (hs : firstIdx start_redact text = some s) :
    (∀ e3, firstIdx end_redact3 text = some e3 →
      ∃ st, locate text = Except.ok st ∧
        st.result = some (pySlice (s + start_redact.length) e3 text)) ∧
    (firstIdx end_redact3 text = none →
      ∀ e2, firstIdx end_redact2 text = some e2 →
        ∃ st, locate text = Except.ok st ∧
          st.result = some (pySlice (s + start_redact.length) e2 text)) ∧
    (firstIdx end_redact3 text = none → firstIdx end_redact2 text = none →
      ∀ e1, firstIdx end_redact1 text = some e1 →
        ∃ st, locate text = Except.ok st ∧
          st.result = some (pySlice (s + start_redact.length) e1 text)) := by
  refine ⟨?_, ?_, ?_⟩
  · intro e3 h3
    exact ⟨_, locate_of_start text s hs, by simp [chosenEnd, h3]⟩
  · intro h3 e2 h2
    exact ⟨_, locate_of_start text s hs, by simp [chosenEnd, h2, h3]⟩
  · intro h3 h2 e1 h1
    exact ⟨_, locate_of_start text s hs, by simp [chosenEnd, h1, h2, h3]⟩

/-- Witness for C7 on a page holding both the first and the third
candidate: the span is cut at the third candidate (index 55), and runs
through the text of the first one. -/
theorem last_end_marker_wins_witness :
    (firstIdx end_redact1 multiText).isSome = true ∧
    (firstIdx end_redact3 multiText).isSome = true ∧
    (∃ st, locate multiText = Except.ok st ∧
      st.result = some (pySlice (0 + start_redact.length) 55 multiText)) ∧
    pySlice (0 + start_redact.length) 55 multiText = ("X" ++ "\nStory Link 1").toList :=
  ⟨by decide, by decide, (last_end_marker_wins multiText 0 rfl).1 55 rfl, by decide⟩

/-- Claim C2 (corrected) — counterexample to the claim as stated.  A
page containing the second end-marker candidate but neither the first
one nor the start marker does NOT produce an `Ambiguous` result with a
logged diagnostic: the `except ValueError` handler references the
unassigned variable `error` and raises (`Except.error`, nothing
logged).  And a page on which the start marker occurs only after the
end marker yields the silently EMPTY span, which proceeds to redaction
and marks the page `Redacted`. -/
theorem locate_missing_start_cex :
    locate badText = Except.error ⟨none, false, []⟩ ∧
    processPage ⟨swapText, sfZero⟩ FileStat.Unredacted =
      Except.ok ⟨[], some ([], 0), FileStat.Redacted⟩ :=
  ⟨rfl, rfl⟩

/-- Claim C2 (corrected) — amended claim.  (1) When the FIRST end
marker is present and the start marker is absent, the scan returns no
span and logs the `CHECK FILE` diagnostic, without raising.  (2) When
only the second or third candidate is present and the start marker is
absent, the scan raises an exception (unbound diagnostic variable)
instead of producing a diagnosed `Ambiguous` result.  (3) When the
start marker occurs only after the chosen end marker, the span is the
empty string and it proceeds to redaction, marking the page
`Redacted`. -/
theorem locate_missing_start (text : List Char) :
    (firstIdx start_redact text = none →
      (firstIdx end_redact1 text).isSome = true →
      ∃ st, locate text = Except.ok st ∧ st.result = none ∧
        checkFileError ∈ st.logs) ∧
    (firstIdx start_redact text = none →
      firstIdx end_redact1 text = none →
      ((firstIdx end_redact2 text).isSome = true ∨
        (firstIdx end_redact3 text).isSome = true) →
      ∃ st, locate text = Except.error st) ∧
    (∀ s m e, firstIdx start_redact text = some s → chosenEnd text = some m →
      firstIdx m text = some e → e ≤ s →
      ∀ sf stat, processPage ⟨text, sf⟩ stat =
        Except.ok ⟨[], some ([], sf []), FileStat.Redacted⟩) := by
  refine ⟨locate_no_start_end1 text, locate_no_start_no_end1 text, ?_⟩
  intro s m e hs hm he hes sf stat
  have hloc := locate_of_start text s hs
  have hnil : pySlice (s + start_redact.length) e text = [] :=
    pySlice_eq_nil _ _ _ (by omega)
  simp [processPage, hloc, hm, he, hnil, placeholder, lowerL]

/-- Witness for the amended C2: a page that is just the first end
marker is diagnosed; a page that is just the second candidate raises;
a page with the start marker after the end marker commits the empty
span and stays `Redacted`. -/
theorem locate_missing_start_witness :
    (∃ st, locate end_redact1 = Except.ok st ∧ st.result = none ∧
      checkFileError ∈ st.logs) ∧
    (∃ st, locate badText = Except.error st) ∧
    processPage ⟨swapText, sfOne⟩ FileStat.Redacted =
      Except.ok ⟨[], some ([], 1), FileStat.Redacted⟩ :=
  ⟨(locate_missing_start end_redact1).1 rfl (by decide),
    (locate_missing_start badText).2.1 rfl rfl (Or.inl (by decide)),
    (locate_missing_start swapText).2.2 13 end_redact1 0 rfl rfl rfl (by decide)
      sfOne FileStat.Redacted⟩

/-- Claim C3 (corrected) — counterexample to the claim as stated.  On
the worked example page with a region search that finds ZERO regions,
the document outcome is `Redacted` (and the file is rewritten), not
`Flagged`: the commit records zero rectangles but `file_stat` is set
unconditionally. -/
theorem zero_regions_redacted_cex :
    redaction pA [⟨exText, sfZero⟩] = Except.ok
      ⟨[], [("SECRET".toList, 0)], FileStat.Redacted,
        some "Application-1_redacted.pdf".toList, some pA⟩ :=
  rfl

/-- Claim C3 (corrected) — amended claim.  For every page with a
located non-placeholder span, the redactions are applied and the page
sets `file_stat = 'Redacted'` REGARDLESS of how many regions the
search finds — zero included; the application step never reports
failure (the code has no `Flagged` disposition at all, only
`Unredacted` and `Redacted`). -/
theorem zero_regions_still_redacted (pg : Page) (stat : FileStat)
    (st : LocSt) (r : List Char)
    (hl : locate pg.text = Except.ok st) (hr : st.result = some r)
    (hp : placeholder r = false) :
    processPage pg stat =
      Except.ok ⟨st.logs, some (r, pg.searchFor r), FileStat.Redacted⟩ := by
  simp [processPage, hl, hr, hp]

/-- Witness for the amended C3: the worked example page with a
zero-region search still ends `Redacted`, committing zero
rectangles. -/
theorem zero_regions_still_redacted_witness :
    processPage ⟨exText, sfZero⟩ FileStat.Unredacted =
      Except.ok ⟨[], some ("SECRET".toList, 0), FileStat.Redacted⟩ :=
  zero_regions_still_redacted ⟨exText, sfZero⟩ FileStat.Unredacted
    ⟨some "SECRET".toList, true, []⟩ "SECRET".toList rfl rfl (by decide)

/-- Claim C4 (confirmed).  A page whose located span is a placeholder
(`n/a`/`na`, case-insensitively) commits nothing and leaves `file_stat`
exactly as it was — a `Redacted` state is not downgraded, an
`Unredacted` state is not upgraded; and the document whose only
end-marker page yields `n/a` ends `Unredacted`, saving and returning
nothing. -/
theorem placeholder_span_noop (pg : Page) (stat : FileStat)
    (st : LocSt) (r : List Char)
    (hl : locate pg.text = Except.ok st) (hr : st.result = some r)
    (hp : placeholder r = true) :
    processPage pg stat = Except.ok ⟨st.logs, none, stat⟩ ∧
    redaction pA [⟨naText, sfOne⟩] =
      Except.ok ⟨[], [], FileStat.Unredacted, none, none⟩ := by
  exact ⟨by simp [processPage, hl, hr, hp], rfl⟩

/-- Witness for C4: the upper-case placeholder `N/A` leaves a
`Redacted` state untouched with no commit, and the `n/a` document ends
`Unredacted` with no file written. -/
theorem placeholder_span_noop_witness :
    processPage ⟨nAText, sfOne⟩ FileStat.Redacted =
      Except.ok ⟨[], none, FileStat.Redacted⟩ ∧
    redaction pA [⟨naText, sfOne⟩] =
      Except.ok ⟨[], [], FileStat.Unredacted, none, none⟩ :=
  placeholder_span_noop ⟨nAText, sfOne⟩ FileStat.Redacted
    ⟨some ("N" ++ "/A").toList, true, []⟩ ("N" ++ "/A").toList rfl rfl (by decide)

/-- Claim C5 (code_bug).  Failures are NOT isolated, because the batch
loop tests the variable `f` that is only assigned when `redaction`
returns normally.  First conjunct: when the FIRST document raises, `f`
has never been assigned, so `if f != None` itself raises
(`UnboundLocalError`) and the whole run aborts — the second, healthy
document is never processed and no list is returned.  Second conjunct:
when a successfully redacted document is followed by a failing one, `f`
still holds the previous path, so that path is logged a second time and
appended to the returned list a second time. -/
theorem batch_failure_not_isolated :
    batch_redact [(pB, [⟨badText, sfZero⟩]), (pA, [⟨exText, sfOne⟩])] =
      Except.error ⟨none, [⟨pB, noteCell (some errorNeedsReview)⟩], [], []⟩ ∧
    batch_redact [(pA, [⟨exText, sfOne⟩]), (pB, [⟨badText, sfZero⟩])] =
      Except.ok ⟨some (some pA),
        [⟨pA, noteCell none⟩, ⟨pB, noteCell (some errorNeedsReview)⟩,
          ⟨pA, noteCell none⟩],
        [pA, pA], ["Application-1_redacted.pdf".toList]⟩ :=
  ⟨rfl, rfl⟩

/-- Claim C6 (corrected) — counterexample to the claim as stated.  With
no pre-existing redaction log, declining the prompt still CREATES the
log file (header row included): lines 227-231 run before any prompt, so
the filesystem is not left byte-for-byte unchanged. -/
theorem decline_creates_log_cex :
    (mainRun false "null".toList "n".toList []).logCreated = true ∧
    (mainRun false "null".toList "n".toList []).batchRan = false :=
  ⟨rfl, rfl⟩

/-- Claim C6 (corrected) — amended claim.  Declining the confirmation
prompt (any answer whose lower-casing is not `y`, in either mode, for
any batch) runs no batch: no data row is written, no original is
deleted, no redacted copy is saved, and nothing crashes — but a fresh
redaction log (with its header) is created exactly when none existed,
and that creation happens regardless of the answer. -/
theorem decline_no_batch (logExists : Bool) (arg confirm : List Char)
    (docs : List (List Char × List Page))
    (h : lowerL confirm ≠ "y".toList) :
    mainRun logExists arg confirm docs =
      ⟨!logExists, false, [], [], [], false⟩ := by
  unfold mainRun
  simp only [if_neg h]
  split <;> try rfl
  split <;> rfl

/-- Witness for the amended C6: replace mode, answer `N`, one pending
document — nothing runs, but the (here pre-existing) log is not
recreated. -/
theorem decline_no_batch_witness :
    mainRun true "replace".toList ("N" ++ "").toList [(pA, [⟨exText, sfOne⟩])] =
      ⟨false, false, [], [], [], false⟩ :=
  decline_no_batch true "replace".toList ("N" ++ "").toList
    [(pA, [⟨exText, sfOne⟩])] (by decide)

/-- Claim C8 (confirmed).  Enumeration yields exactly the files passing
the name filter (prefix `Application-`/`Judge-`, suffix `.pdf`, not
suffix `_redacted.pdf`), at every depth of the tree; every saved output
of a successful redaction is named `<stem>_redacted.pdf`, which the
filter rejects, so no output of one run is enumerated — hence ever
redacted — by a later run. -/
theorem enumeration_excludes_redacted (t : FSTree) (f : List Char) :
    find_files_in_dir t = (allNames t).filter eligible ∧
    isSuf redactSuffix (redactedName f) = true ∧
    eligible (redactedName f) = false ∧
    (∀ (file : List Char) (pages : List Page) (r : RedactionResult),
      redaction file pages = Except.ok r →
        ∀ nm, r.savedAs = some nm → nm = redactedName file) ∧
    redactedName f ∉ find_files_in_dir t := by
  have hfilter : ∀ u : FSTree, find_files_in_dir u = (allNames u).filter eligible := by
    intro u
    induction u with
    | file n =>
      simp only [find_files_in_dir, allNames, List.filter]
      cases h : eligible n <;> simp [h]
    | dirNil => rfl
    | dirCons e rest ihe ihr =>
      simp [find_files_in_dir, allNames, List.filter_append, ihe, ihr]
  have hsuf : isSuf redactSuffix (redactedName f) = true := by
    unfold isSuf redactedName
    rw [List.reverse_append]
    exact isPre_append _ _
  have helig : eligible (redactedName f) = false := by
    simp [eligible, hsuf]
  refine ⟨hfilter t, hsuf, helig, ?_, ?_⟩
  · intro file pages r hred nm hnm
    revert hred
    unfold redaction
    cases hrp : runPages pages FileStat.Unredacted [] [] with
    | error l =>
      intro hred
      cases hred
    | ok out =>
      obtain ⟨stat, logs, commits⟩ := out
      cases stat with
      | Unredacted =>
        intro hred
        cases hred
        simp at hnm
      | Redacted =>
        intro hred
        cases hred
        simp at hnm
        exact hnm.symm
  · intro hmem
    rw [hfilter t] at hmem
    have := List.of_mem_filter hmem
    rw [helig] at this
    cases this

/-- Witness for C8 on a concrete directory: only the eligible file is
enumerated; the first run's output name is rejected by the filter. -/
theorem enumeration_excludes_redacted_witness :
    find_files_in_dir exTree = (allNames exTree).filter eligible ∧
    find_files_in_dir exTree = [pA] ∧
    eligible (redactedName pA) = false :=
  ⟨(enumeration_excludes_redacted exTree pA).1, by decide,
    (enumeration_excludes_redacted exTree pA).2.2.1⟩

/-- Claim C9 (code_bug).  The audit row for a `Redacted` document does
NOT carry an empty Notes field: `log_file` appends the one-element set
`\x7berror\x7d` (line 101), so the cell for a redacted file reads
`\x7bNone\x7d` — a non-empty string — while the path is still returned;
error rows carry the set-wrapped (hence also non-empty) text. -/
theorem redacted_row_note_not_empty :
    batch_redact [(pA, [⟨exText, sfOne⟩])] =
      Except.ok ⟨some (some pA), [⟨pA, noteCell none⟩], [pA],
        ["Application-1_redacted.pdf".toList]⟩ ∧
    noteCell none ≠ "" ∧ noteCell (some checkFileError) ≠ "" ∧
    noteCell (some errorNeedsReview) ≠ "" :=
  ⟨rfl, by decide, by decide, by decide⟩

end Redact
